import Mathlib

/-!
Verification development for the `satori-cf` package: a shallow embedding of
its concurrency and pipeline core (engine singleton, HTML-attribute style
parsing, single/batch/stream render orchestration), with theorems settling
the specification's testable properties against the code.

Source files embedded here:
  - `src/core/yoga.ts` (`ensureYogaInitialized`, promise-coalescing singleton)
  - `src/utils.ts` (`sanitizeJSON`, `getAttributes` style splitting)
  - `src/generators/single.ts` (`generateOG`)
  - `src/generators/batch.ts` (`generateOGBatch`)
  - `src/generators/stream.ts` (`OGStream`)

Asynchronous code is embedded as explicit state machines over event traces
(the runtime is a single-threaded cooperative event loop, so a call body up
to its first suspension point is one atomic step), and fallible awaited
collaborators are embedded as `Except`-valued parameters, where
`Except.error` denotes a rejected promise escaping the function boundary.
-/

/-- Error value carried by the library's `Error` subclasses in `errors.ts`:
each class sets a `name` (e.g. `"SVGGenerationError"`) and a `message`. -/
structure SatoriError where
  name : String
  message : String
deriving DecidableEq, Repr

/-- The discriminated result union from `types.ts`:
`{ok: true, value} | {ok: false, error}`. -/
inductive OGResult (α : Type) where
  | ok (value : α)
  | error (e : SatoriError)
deriving DecidableEq, Repr

/-- `result.ok` field of the discriminated union. -/
def OGResult.isOk : OGResult α → Bool
  | .ok _ => true
  | .error _ => false

/-- `BatchResult` from `types.ts`: index of the item in the original batch
plus its generation result. -/
structure BatchResult where
  index : Nat
  result : OGResult String
deriving DecidableEq, Repr

/-- Does `pat` occur at the head of `s`? (helper for the substring test). -/
def charsStartWith : List Char → List Char → Bool
  | [], _ => true
  | _ :: _, [] => false
  | p :: ps, c :: cs => p = c && charsStartWith ps cs

/-- Does `pat` occur contiguously anywhere in `s`? Embeds JavaScript's
`String.prototype.includes`. -/
def charsContain (pat : List Char) : List Char → Bool
  | [] => charsStartWith pat []
  | c :: cs => charsStartWith pat (c :: cs) || charsContain pat cs

/-- The check `err.message.includes("Already initialized")` in
`ensureYogaInitialized`'s catch handler (`src/core/yoga.ts`). -/
def isAlreadyInitSignal (e : SatoriError) : Bool :=
  charsContain "Already initialized".toList e.message.toList

/-- How the single in-flight initialization attempt settles: the awaited
`initYoga`/`initSatori` side effect either succeeds or rejects with an
error (which may or may not be the lower-level already-initialized signal). -/
inductive InitOutcome where
  | success
  | failure (e : SatoriError)
deriving DecidableEq, Repr

/-- The caller-visible outcome of `ensureYogaInitialized` once the attempt
it joined settles: the already-initialized signal is converted to success
by the catch handler, every other error is re-thrown to all waiters. -/
def initOutcomeValue : InitOutcome → Except SatoriError Unit
  | .success => Except.ok ()
  | .failure e => if isAlreadyInitSignal e then Except.ok () else Except.error e

deriving instance DecidableEq for Except

/-- Events of the singleton's event-loop model: a caller invoking
`ensureYogaInitialized` (atomic: the body contains no suspension point
before it returns or stores the coalesced promise), or the in-flight
initialization attempt settling. -/
inductive YogaEv where
  | call (cid : Nat)
  | settle (o : InitOutcome)
deriving DecidableEq, Repr

/-- Model of the module-level `state` in `src/core/yoga.ts` plus the
observable bookkeeping needed by the claims: `initialized` and
`initializing` mirror the module fields (`initializing` holds the id of the
in-flight attempt instead of the promise object); `started` counts how many
times the initialization side effect (`initYoga` + `initSatori`) was begun;
`joined` records which callers are suspended awaiting which attempt; `done`
records each caller's final outcome. -/
structure YogaModelState where
  initialized : Bool
  initializing : Option Nat
  started : Nat
  joined : List (Nat × Nat)
  done : List (Nat × Except SatoriError Unit)
deriving DecidableEq, Repr

/-- One atomic event-loop step of `src/core/yoga.ts`.

`call`: the fast path returns at once when `initialized`; a caller during an
in-flight attempt returns the coalesced `state.initializing` promise; the
first caller stores a fresh attempt (starting the side effect) and awaits it.

`settle`: the attempt's `try/catch/finally` — on success (or on the
`"Already initialized"` error, handled gracefully) `state.initialized` is
set; a genuine error is re-thrown to every waiter and leaves `initialized`
false; the `finally` clears `state.initializing` in both cases. -/
def yogaStep (s : YogaModelState) : YogaEv → YogaModelState
  | .call cid =>
    if s.initialized then
      { s with done := (cid, Except.ok ()) :: s.done }
    else
      match s.initializing with
      | some a => { s with joined := (cid, a) :: s.joined }
      | none =>
        { s with initializing := some s.started
                 started := s.started + 1
                 joined := (cid, s.started) :: s.joined }
  | .settle o =>
    match s.initializing with
    | none => s
    | some a =>
      let outcome := initOutcomeValue o
      let succeeded : Bool :=
        match o with
        | .success => true
        | .failure e => isAlreadyInitSignal e
      { initialized := s.initialized || succeeded
        initializing := none
        started := s.started
        joined := s.joined.filter (fun p => !(p.2 == a))
        done := (s.joined.filter (fun p => p.2 == a)).map (fun p => (p.1, outcome))
                  ++ s.done }

/-- Run a trace of events from a state. -/
def runYoga (s : YogaModelState) (evs : List YogaEv) : YogaModelState :=
  evs.foldl yogaStep s

/-- The module-load state of `src/core/yoga.ts`: not initialized, no
in-flight attempt, side effect never run. -/
def yogaInit : YogaModelState :=
  { initialized := false, initializing := none, started := 0, joined := [], done := [] }

/-- JavaScript `\s` on the ASCII range (space, tab, line feed, vertical tab,
form feed, carriage return), as matched by the regexes in `getAttributes`
and by `String.prototype.trim`. -/
def isJsWhitespace (c : Char) : Bool :=
  c = ' ' || c = '\t' || c = '\n' || c = '\x0b' || c = '\x0c' || c = '\r'

/-- Per-character expansion of `sanitizeJSON` (`src/utils.ts`): the six
chained `.replace` calls escape backslash, newline, carriage return, tab,
form feed and double quote; each source character is rewritten
independently, so the chain is a single character map. -/
def sanitizeChar (c : Char) : List Char :=
  if c = '\\' then ['\\', '\\']
  else if c = '\n' then ['\\', 'n']
  else if c = '\r' then ['\\', 'r']
  else if c = '\t' then ['\\', 't']
  else if c = '\x0c' then ['\\', 'f']
  else if c = '"' then ['\\', '"']
  else [c]

/-- `sanitizeJSON` over a character list. -/
def sanitizeChars (cs : List Char) : List Char :=
  cs.flatMap sanitizeChar

/-- `sanitizeJSON` from `src/utils.ts`. -/
def sanitizeJSON (s : String) : String :=
  String.mk (sanitizeChars s.toList)

/-- `.replace(/\s\s+/g, " ")`: every run of two or more whitespace
characters becomes a single space; an isolated whitespace character is kept
as-is. Fuel-driven recursion (each step consumes at least one character, so
the character count is sufficient fuel). -/
def collapseWsFuel : Nat → List Char → List Char
  | 0, _ => []
  | _ + 1, [] => []
  | fuel + 1, c :: rest =>
    if isJsWhitespace c then
      match rest with
      | r :: _ =>
        if isJsWhitespace r then ' ' :: collapseWsFuel fuel (rest.dropWhile isJsWhitespace)
        else c :: collapseWsFuel fuel rest
      | [] => [c]
    else c :: collapseWsFuel fuel rest

/-- The `cleanStyle` preprocessing in `getAttributes`:
`style.replace(/\n/g, "").replace(/\s\s+/g, " ")`. -/
def cleanStyleChars (s : String) : List Char :=
  let noNewlines := s.toList.filter (fun c => !(c = '\n'))
  collapseWsFuel noNewlines.length noNewlines

/-- The lookahead `[^(]*\)` of the split regex `/;(?![^(]*\))/`: scanning
right from the character after the `;`, is a `)` reached before any `(`? -/
def seesCloseBeforeOpen : List Char → Bool
  | [] => false
  | c :: t => if c = ')' then true else if c = '(' then false else seesCloseBeforeOpen t

/-- `cleanStyle.split(/;(?![^(]*\))/)`: split at every `;` whose negative
lookahead holds (no `)` before the next `(`), keeping the `;` inside the
current piece otherwise. `acc` is the reversed current piece. -/
def splitSemisAux : List Char → List Char → List (List Char)
  | acc, [] => [acc.reverse]
  | acc, c :: t =>
    if c = ';' then
      (if seesCloseBeforeOpen t then splitSemisAux (c :: acc) t
       else acc.reverse :: splitSemisAux [] t)
    else splitSemisAux (c :: acc) t

/-- JavaScript `.trim()` on the ASCII range. -/
def trimChars (cs : List Char) : List Char :=
  ((cs.dropWhile isJsWhitespace).reverse.dropWhile isJsWhitespace).reverse

/-- `cur.split(/:(.+)/)` destructured as `[k, v]` ("split only the first
colon"): the piece is split at its first `:` that is followed by at least
one character, `v` being everything after that colon; `none` when no such
colon exists (then `v` is `undefined` and the pair is skipped). This
matches the source whenever the value contains no line terminator (the
regex dot excludes them; `cleanStyle` has already deleted every `\n` by
this point). -/
def splitFirstColonAux : List Char → List Char → Option (List Char × List Char)
  | _, [] => none
  | acc, ':' :: t => if t = [] then none else some (acc.reverse, t)
  | acc, c :: t => splitFirstColonAux (c :: acc) t

/-- Modelled from the spec: key normalization in `getAttributes` calls the
external `just-camel-case` package, which is not part of this repository;
the spec says style keys are normalized from hyphen-case to camel-case, so
each hyphen is dropped and the character following it is upper-cased. -/
def camelCase : List Char → List Char
  | [] => []
  | '-' :: c :: t => c.toUpper :: camelCase t
  | c :: t => c :: camelCase t

/-- The body of the `reduce` in `getAttributes`: a piece contributes the
entry `"camelCase(k.trim())": "sanitizeJSON(v.trim())"` when both `k` and
`v` are non-empty, and nothing otherwise. -/
def styleEntryOfPiece (piece : List Char) : Option (String × String) :=
  match splitFirstColonAux [] piece with
  | none => none
  | some (k, v) =>
    if k = [] then none
    else some (String.mk (camelCase (trimChars k)), String.mk (sanitizeChars (trimChars v)))

/-- The style map built by `getAttributes` (`src/utils.ts`), as the ordered
list of key/value entries that the source accumulates into the JSON object
string `"style":{...}`. -/
def styleEntries (style : String) : List (String × String) :=
  (splitSemisAux [] (cleanStyleChars style)).filterMap styleEntryOfPiece

/-- Modelled from the spec (reference splitter for the refinement claim):
"split a `style` attribute into key/value pairs on `;`, but never inside
parenthesized sub-expressions" — split exactly at the semicolons occurring
at parenthesis depth zero, tracking the depth explicitly. -/
def depthSplitAux : List Char → Nat → List Char → List (List Char)
  | acc, _, [] => [acc.reverse]
  | acc, d, c :: t =>
    if c = ';' then
      (if d = 0 then acc.reverse :: depthSplitAux [] 0 t
       else depthSplitAux (c :: acc) d t)
    else depthSplitAux (c :: acc) (if c = '(' then d + 1 else if c = ')' then d - 1 else d) t

/-- The spec-side style map: like `styleEntries` but with the spec's
depth-tracking splitter in place of the source's regex lookahead. -/
def specStyleEntries (style : String) : List (String × String) :=
  (depthSplitAux [] 0 (cleanStyleChars style)).filterMap styleEntryOfPiece

/-- The string's parentheses are balanced with no nesting: depth stays in
`{0, 1}` and returns to `0` at the end (the argument is the current depth). -/
def nonNestedBalanced : List Char → Nat → Bool
  | [], d => d = 0
  | c :: t, d =>
    if c = '(' then (if d = 0 then nonNestedBalanced t 1 else false)
    else if c = ')' then (if d = 1 then nonNestedBalanced t 0 else false)
    else nonNestedBalanced t d

/-- The `element` argument of the entry points: an HTML string (to be
parsed) or an already-built React element (opaque here). -/
inductive ElementInput where
  | htmlString (s : String)
  | reactNode (vdom : Nat)
deriving DecidableEq, Repr

/-- The awaited collaborators of `generateOG` (`src/generators/single.ts`):
`ensureYogaInitialized` (may reject), `parseHtml` (returns `null` rather
than raising), the caller-provided fonts or the awaited
`loadGoogleFont` default, and the awaited `satori` engine call.
`Except.error` denotes a rejected awaited promise. -/
structure RenderEnv where
  init : Except SatoriError Unit
  parseHtml : String → Option Nat
  fonts : Option Nat
  loadFont : Except SatoriError Nat
  satoriRender : Nat → Except SatoriError String

/-- The error result built by all three generators when `parseHtml` yields
`null`: `new SVGGenerationError("Failed to parse HTML element")`. -/
def svgParseFailError : SatoriError :=
  { name := "SVGGenerationError", message := "Failed to parse HTML element" }

/-- `generateOG` from `src/generators/single.ts`: inside one `try` block it
awaits initialization, parses string input (returning the parse-failure
error result on `null`), resolves fonts, and awaits the engine; the `catch`
wraps any rejection as the error variant, so the function itself always
returns an `OGResult` and never rejects. -/
def generateOG (env : RenderEnv) (element : ElementInput) : OGResult String :=
  let body : Except SatoriError (OGResult String) := do
    let _ ← env.init
    let vdom? : Option Nat :=
      match element with
      | .htmlString s => env.parseHtml s
      | .reactNode v => some v
    match vdom? with
    | none => pure (OGResult.error svgParseFailError)
    | some vdom => do
      let _ ← (match env.fonts with
        | some f => Except.ok f
        | none => env.loadFont)
      let svg ← env.satoriRender vdom
      pure (OGResult.ok svg)
  match body with
  | .ok r => r
  | .error e => OGResult.error e

/-- The chunked loop of `generateOGBatch` (`src/generators/batch.ts`):
`for (let i = 0; i < items.length && !stopped; i += concurrency)`, where
each chunk `items.slice(i, i + concurrency)` is rendered concurrently
(`Promise.all` keeps chunk order), its results are appended, and under
`failFast` a chunk containing a failed result stops further scheduling.
`render i` is the settled `BatchResult.result` of item `i` (the per-item
closure catches all its own failures, so it always settles with a result).
Fuel-driven: with `concurrency ≥ 1`, `items.length` iterations suffice. -/
def batchLoop (render : Nat → OGResult String) (failFast : Bool) (c n : Nat) :
    Nat → Nat → List BatchResult
  | 0, _ => []
  | fuel + 1, start =>
    if start < n then
      let len := min c (n - start)
      let chunk := (List.range' start len).map (fun i => { index := i, result := render i })
      if failFast && chunk.any (fun r => !r.result.isOk) then chunk
      else chunk ++ batchLoop render failFast c n fuel (start + c)
    else []

/-- `generateOGBatch`'s returned list: the chunk-loop results sorted by
original index (`results.sort((a, b) => a.index - b.index)`). -/
def generateOGBatchResults (render : Nat → OGResult String) (failFast : Bool)
    (c n : Nat) : List BatchResult :=
  List.insertionSort (fun a b => a.index ≤ b.index) (batchLoop render failFast c n n 0)

/-- `generateOGBatch` from `src/generators/batch.ts` with its initialization
step: `await ensureYogaInitialized()` is the first statement and is not
inside any `try`, so its rejection escapes to the caller (`Except.error`);
otherwise the chunked loop produces the sorted result list. -/
def generateOGBatch (init : Except SatoriError Unit) (render : Nat → OGResult String)
    (failFast : Bool) (c n : Nat) : Except SatoriError (List BatchResult) :=
  match init with
  | .error e => Except.error e
  | .ok _ => Except.ok (generateOGBatchResults render failFast c n)

/-- Number of items scheduled through the first failing chunk (spec-side
quantity for the fail-fast length statement): walks the same chunk
boundaries as `batchLoop` and returns `start + len` at the first chunk
containing a failure, `n` when no scheduled chunk fails. -/
def failFastCount (render : Nat → OGResult String) (c n : Nat) : Nat → Nat → Nat
  | 0, start => min start n
  | fuel + 1, start =>
    if start < n then
      let len := min c (n - start)
      if (List.range' start len).any (fun i => !(render i).isOk) then start + len
      else failFastCount render c n fuel (start + c)
    else n

/-- A result yielded by the stream pipeline, with the time at which the
consumer received it (`time` exists only in the model: it exposes that the
yield order is independent of the completion schedule). -/
structure StreamEv where
  index : Nat
  result : OGResult String
  time : Nat
deriving DecidableEq, Repr

/-- The sliding-window drain loop of `OGStream` (`src/generators/stream.ts`):
`while (pending.length > 0)` awaits `pending.shift()` — always the earliest
started in-flight render, never whichever settles first — yields it, then
pulls one more item and pushes its render onto the queue tail. `pending`
holds the indices of in-flight renders, `nextIdx` the next index to pull,
`clock` the consumer-side time, and `finishAt i` the completion schedule of
render `i`: awaiting the head suspends until `max clock (finishAt head)`.
Fuel-driven: every iteration yields once, so `pending.length + remaining`
steps suffice. -/
def streamDrain (finishAt : Nat → Nat) (render : Nat → OGResult String) (n : Nat) :
    Nat → List Nat → Nat → Nat → List StreamEv
  | 0, _, _, _ => []
  | _ + 1, [], _, _ => []
  | fuel + 1, h :: t, nextIdx, clock =>
    let yieldTime := max clock (finishAt h)
    { index := h, result := render h, time := yieldTime } ::
      (if nextIdx < n then streamDrain finishAt render n fuel (t ++ [nextIdx]) (nextIdx + 1) yieldTime
       else streamDrain finishAt render n fuel t nextIdx yieldTime)

/-- The yield sequence of `OGStream` for an `n`-item source and prefetch
window `w` (the code's `prefetch` option, an arbitrary integer): the fill
loop `for (let i = 0; i < prefetch; i++)` starts renders `0 ≤ i < min w n`
(none when `w ≤ 0`, since `Int.toNat` sends non-positive values to `0`),
then the drain loop runs. -/
def OGStreamYields (finishAt : Nat → Nat) (render : Nat → OGResult String)
    (n : Nat) (w : Int) : List StreamEv :=
  let fill := min w.toNat n
  streamDrain finishAt render n (fill + (n - fill)) (List.range fill) fill 0

/-- `OGStream` from `src/generators/stream.ts` with its initialization step:
`await ensureYogaInitialized()` precedes the pipeline and is not inside any
`try`, so its rejection escapes through the generator's first `next()`
(`Except.error`); otherwise the pipeline yields `OGStreamYields`. -/
def OGStream (init : Except SatoriError Unit) (finishAt : Nat → Nat)
    (render : Nat → OGResult String) (n : Nat) (w : Int) :
    Except SatoriError (List StreamEv) :=
  match init with
  | .error e => Except.error e
  | .ok _ => Except.ok (OGStreamYields finishAt render n w)

/-- A render function that always succeeds (concrete instance for witnesses). -/
def okRender : Nat → OGResult String := fun _ => OGResult.ok "svg"

/-- Concrete render outcomes for the fail-fast scenario: the item at index 1
always produces a failing result, every other item succeeds. -/
def c5Render : Nat → OGResult String := fun i =>
  if i = 1 then OGResult.error { name := "SVGGenerationError", message := "render failed" }
  else OGResult.ok "svg"

/-- A concrete genuine engine-initialization failure. -/
def engineInitFailure : SatoriError :=
  { name := "WASMInitError", message := "WASM initialization failed" }

/-- A concrete collaborator environment whose `parseHtml` always yields
`null` and whose other collaborators succeed. -/
def parseNullEnv : RenderEnv :=
  { init := Except.ok ()
    parseHtml := fun _ => none
    fonts := none
    loadFont := Except.ok 0
    satoriRender := fun _ => Except.ok "svg" }

/-- A concrete singleton state in which the engine is already ready. -/
def yogaReadyState : YogaModelState :=
  { initialized := true, initializing := none, started := 1, joined := [], done := [] }

/-- The spec's round-trip style attribute: two declarations, the second a
multi-argument gradient function with internal commas and parentheses. -/
def gradientStyle : String :=
  "color: red; background: linear-gradient(90deg, red, blue)"

/-- A style attribute whose only semicolon sits inside a parenthesized
sub-expression that contains a nested parenthesized call after the
semicolon. -/
def nestedParenStyle : String := "a: f(b;g(c))"

/-! ## Engine singleton: supporting lemmas -/

theorem yogaStep_call_fast (s : YogaModelState) (cid : Nat) (h : s.initialized = true) :
    yogaStep s (.call cid) = { s with done := (cid, Except.ok ()) :: s.done } := by
  simp [yogaStep, h]

theorem yogaStep_call_join (s : YogaModelState) (cid a : Nat)
    (h1 : s.initialized = false) (h2 : s.initializing = some a) :
    yogaStep s (.call cid) = { s with joined := (cid, a) :: s.joined } := by
  simp [yogaStep, h1, h2]

theorem yogaStep_call_start (s : YogaModelState) (cid : Nat)
    (h1 : s.initialized = false) (h2 : s.initializing = none) :
    yogaStep s (.call cid) =
      { s with initializing := some s.started
               started := s.started + 1
               joined := (cid, s.started) :: s.joined } := by
  simp [yogaStep, h1, h2]

theorem runYoga_calls_join (cs : List Nat) (a : Nat) :
    ∀ s : YogaModelState, s.initialized = false → s.initializing = some a →
      runYoga s (cs.map YogaEv.call) =
        { s with joined := cs.reverse.map (fun c => (c, a)) ++ s.joined } := by
  induction cs with
  | nil => intro s _ _; simp [runYoga]
  | cons c t ih =>
    intro s h1 h2
    have hstep := yogaStep_call_join s c a h1 h2
    simp only [List.map_cons, runYoga, List.foldl_cons, hstep]
    have := ih { s with joined := (c, a) :: s.joined } h1 h2
    simp only [runYoga] at this
    rw [this]
    simp [List.append_assoc]

theorem runYoga_calls_from_init (c0 : Nat) (cs : List Nat) :
    runYoga yogaInit ((c0 :: cs).map YogaEv.call) =
      { initialized := false
        initializing := some 0
        started := 1
        joined := cs.reverse.map (fun c => (c, 0)) ++ [(c0, 0)]
        done := [] } := by
  have hstep := yogaStep_call_start yogaInit c0 rfl rfl
  simp only [List.map_cons, runYoga, List.foldl_cons, hstep]
  have := runYoga_calls_join cs 0
    { yogaInit with initializing := some yogaInit.started
                    started := yogaInit.started + 1
                    joined := (c0, yogaInit.started) :: yogaInit.joined } rfl rfl
  simp only [runYoga] at this
  rw [this]
  rfl

theorem filter_key_map_eq (m : List Nat) (a : Nat) :
    ((m.map (fun c => (c, a))).filter (fun p => p.2 == a)) = m.map (fun c => (c, a)) := by
  induction m with
  | nil => rfl
  | cons c t ih => simp [List.filter, ih]

theorem lookup_const_map {β : Type} (v : β) (cid : Nat) (l : List Nat) (h : cid ∈ l) :
    (l.map (fun c => (c, v))).lookup cid = some v := by
  induction l with
  | nil => cases h
  | cons c t ih =>
    rcases List.mem_cons.mp h with hc | ht
    · subst hc; simp [List.lookup]
    · by_cases hcc : cid = c
      · subst hcc; simp [List.lookup]
      · have hbeq : (cid == c) = false := by simpa using hcc
        simp only [List.map_cons, List.lookup, hbeq]
        exact ih ht

theorem settle_after_calls (c0 : Nat) (cs : List Nat) (o : InitOutcome) :
    runYoga yogaInit ((c0 :: cs).map YogaEv.call ++ [YogaEv.settle o]) =
      { initialized := match o with
          | .success => true
          | .failure e => isAlreadyInitSignal e
        initializing := none
        started := 1
        joined := []
        done := (cs.reverse ++ [c0]).map (fun c => (c, initOutcomeValue o)) } := by
  have hsplit : runYoga yogaInit ((c0 :: cs).map YogaEv.call ++ [YogaEv.settle o])
      = yogaStep (runYoga yogaInit ((c0 :: cs).map YogaEv.call)) (YogaEv.settle o) := by
    simp [runYoga, List.foldl_append]
  rw [hsplit, runYoga_calls_from_init]
  have hJ : cs.reverse.map (fun c => (c, (0 : Nat))) ++ [(c0, 0)]
      = (cs.reverse ++ [c0]).map (fun c => (c, (0 : Nat))) := by simp
  simp only [yogaStep, hJ]
  rw [filter_key_map_eq]
  have hne : ∀ m : List Nat,
      (m.map (fun c => (c, (0 : Nat)))).filter (fun p => !(p.2 == 0)) = [] := by
    intro m
    induction m with
    | nil => rfl
    | cons c t ih => simp [List.filter, ih]
  rw [hne]
  cases o <;> simp [List.map_map, Function.comp]

/-! ## Claims C1, C8, C9: the engine singleton -/

/-- C1: for every N ≥ 1 concurrent first-time callers of
`ensureYogaInitialized` (all calls arrive before the single in-flight
attempt settles, starting from the module-load state), the initialization
side effect (`initYoga` + `initSatori`) is started exactly once, and every
caller observes the identical outcome of the winning attempt (all resolve
when it succeeds or reports the already-initialized signal; all reject with
the same error when it genuinely fails). -/
theorem c1_engine_init_exactly_once (cids : List Nat) (o : InitOutcome) (hne : cids ≠ []) :
    (runYoga yogaInit (cids.map YogaEv.call ++ [YogaEv.settle o])).started = 1 ∧
    ∀ cid ∈ cids,
      (runYoga yogaInit (cids.map YogaEv.call ++ [YogaEv.settle o])).done.lookup cid
        = some (initOutcomeValue o) := by
  obtain ⟨c0, cs, rfl⟩ := List.exists_cons_of_ne_nil hne
  rw [settle_after_calls]
  refine ⟨rfl, ?_⟩
  intro cid hmem
  apply lookup_const_map
  rcases List.mem_cons.mp hmem with hc | ht
  · subst hc; simp
  · simp [ht]

/-- C1 witness: three concurrent first-time callers and a successful
attempt — the side effect ran once and all three callers resolved. -/
theorem c1_engine_init_exactly_once_witness :
    ([0, 1, 2] : List Nat) ≠ [] ∧
    ((runYoga yogaInit (([0, 1, 2] : List Nat).map YogaEv.call
        ++ [YogaEv.settle InitOutcome.success])).started = 1 ∧
      ∀ cid ∈ ([0, 1, 2] : List Nat),
        (runYoga yogaInit (([0, 1, 2] : List Nat).map YogaEv.call
            ++ [YogaEv.settle InitOutcome.success])).done.lookup cid
          = some (initOutcomeValue InitOutcome.success)) :=
  ⟨by decide, c1_engine_init_exactly_once [0, 1, 2] InitOutcome.success (by decide)⟩

/-- C8: when the single in-flight attempt settles with a genuine error `e`
(not the already-initialized signal), every waiting caller receives exactly
that error, the singleton reverts to uninitialized (`initialized` false,
`initializing` cleared) with the side-effect count still 1 (the settle
itself starts no retry), and the next call then starts a fresh attempt
(side-effect count 2, new in-flight handle). -/
theorem c8_genuine_failure_resets_state (cids : List Nat) (e : SatoriError) (cid' : Nat)
    (hne : cids ≠ []) (hgen : isAlreadyInitSignal e = false) :
    (∀ cid ∈ cids,
      (runYoga yogaInit (cids.map YogaEv.call ++ [YogaEv.settle (InitOutcome.failure e)])).done.lookup cid
        = some (Except.error e)) ∧
    (runYoga yogaInit (cids.map YogaEv.call ++ [YogaEv.settle (InitOutcome.failure e)])).initialized = false ∧
    (runYoga yogaInit (cids.map YogaEv.call ++ [YogaEv.settle (InitOutcome.failure e)])).initializing = none ∧
    (runYoga yogaInit (cids.map YogaEv.call ++ [YogaEv.settle (InitOutcome.failure e)])).started = 1 ∧
    (yogaStep (runYoga yogaInit (cids.map YogaEv.call ++ [YogaEv.settle (InitOutcome.failure e)]))
        (YogaEv.call cid')).started = 2 ∧
    (yogaStep (runYoga yogaInit (cids.map YogaEv.call ++ [YogaEv.settle (InitOutcome.failure e)]))
        (YogaEv.call cid')).initializing = some 1 := by
  obtain ⟨c0, cs, rfl⟩ := List.exists_cons_of_ne_nil hne
  rw [settle_after_calls]
  have hout : initOutcomeValue (InitOutcome.failure e) = Except.error e := by
    simp [initOutcomeValue, hgen]
  refine ⟨?_, by simp [hgen], rfl, rfl, ?_, ?_⟩
  · intro cid hmem
    rw [hout]
    apply lookup_const_map
    rcases List.mem_cons.mp hmem with hc | ht
    · subst hc; simp
    · simp [ht]
  · rw [yogaStep_call_start _ cid' (by simp [hgen]) rfl]
  · rw [yogaStep_call_start _ cid' (by simp [hgen]) rfl]

/-- C8 witness: two waiters, a genuine failure, then one later caller. -/
theorem c8_genuine_failure_resets_state_witness :
    ([4, 7] : List Nat) ≠ [] ∧
    isAlreadyInitSignal { name := "X", message := "wasm fetch failed" } = false ∧
    ((∀ cid ∈ ([4, 7] : List Nat),
        (runYoga yogaInit (([4, 7] : List Nat).map YogaEv.call
            ++ [YogaEv.settle (InitOutcome.failure { name := "X", message := "wasm fetch failed" })])).done.lookup cid
          = some (Except.error { name := "X", message := "wasm fetch failed" })) ∧
      (runYoga yogaInit (([4, 7] : List Nat).map YogaEv.call
          ++ [YogaEv.settle (InitOutcome.failure { name := "X", message := "wasm fetch failed" })])).initialized = false ∧
      (runYoga yogaInit (([4, 7] : List Nat).map YogaEv.call
          ++ [YogaEv.settle (InitOutcome.failure { name := "X", message := "wasm fetch failed" })])).initializing = none ∧
      (runYoga yogaInit (([4, 7] : List Nat).map YogaEv.call
          ++ [YogaEv.settle (InitOutcome.failure { name := "X", message := "wasm fetch failed" })])).started = 1 ∧
      (yogaStep (runYoga yogaInit (([4, 7] : List Nat).map YogaEv.call
            ++ [YogaEv.settle (InitOutcome.failure { name := "X", message := "wasm fetch failed" })]))
          (YogaEv.call 9)).started = 2 ∧
      (yogaStep (runYoga yogaInit (([4, 7] : List Nat).map YogaEv.call
            ++ [YogaEv.settle (InitOutcome.failure { name := "X", message := "wasm fetch failed" })]))
          (YogaEv.call 9)).initializing = some 1) :=
  ⟨by decide, by decide,
    c8_genuine_failure_resets_state [4, 7] { name := "X", message := "wasm fetch failed" } 9
      (by decide) (by decide)⟩

/-- C9: a call to `ensureYogaInitialized` arriving after the engine is
ready is idempotent and suspension-free: in one atomic step the caller is
resolved successfully (it lands directly in `done`, never in the waiting
set), and the state is otherwise untouched — `initializing` is not touched
and the side-effect count does not change. -/
theorem c9_ready_fast_path (s : YogaModelState) (cid : Nat) (h : s.initialized = true) :
    yogaStep s (.call cid) = { s with done := (cid, Except.ok ()) :: s.done } :=
  yogaStep_call_fast s cid h

/-- C9 witness: the fast path on a concrete ready state. -/
theorem c9_ready_fast_path_witness :
    yogaReadyState.initialized = true ∧
    yogaStep yogaReadyState (.call 7)
      = { yogaReadyState with done := [(7, Except.ok ())] } :=
  ⟨rfl, c9_ready_fast_path yogaReadyState 7 rfl⟩

/-! ## Batch orchestrator: supporting lemmas -/

theorem batchLoop_no_failfast (render : Nat → OGResult String) (c n : Nat) :
    ∀ fuel start, n ≤ start + fuel * c →
      batchLoop render false c n fuel start =
        (List.range' start (n - start)).map
          (fun i => { index := i, result := render i }) := by
  intro fuel
  induction fuel with
  | zero =>
    intro start hle
    simp at hle
    have : n - start = 0 := by omega
    simp [batchLoop, this]
  | succ fuel ih =>
    intro start hle
    rw [Nat.succ_mul] at hle
    by_cases hlt : start < n
    · have hrec := ih (start + c) (by omega)
      simp only [batchLoop, if_pos hlt, Bool.false_and, if_neg (by simp : ¬(false = true)), hrec]
      by_cases hbig : c ≤ n - start
      · have hmin : min c (n - start) = c := by omega
        rw [hmin, ← List.map_append, List.range'_append_1]
        have : n - (start + c) + c = n - start := by omega
        rw [this]
      · have hmin : min c (n - start) = n - start := by omega
        have : n - (start + c) = 0 := by omega
        rw [hmin, this]
        simp
    · have : n - start = 0 := by omega
      simp [batchLoop, hlt, this]

theorem failFastCount_of_le (render : Nat → OGResult String) (c n : Nat) :
    ∀ fuel start, n ≤ start → failFastCount render c n fuel start = n := by
  intro fuel
  cases fuel with
  | zero => intro start h; simp [failFastCount]; omega
  | succ fuel => intro start h; simp [failFastCount]; omega

theorem le_failFastCount (render : Nat → OGResult String) (c n : Nat) :
    ∀ fuel start, start ≤ n → start ≤ failFastCount render c n fuel start := by
  intro fuel
  induction fuel with
  | zero => intro start h; simp [failFastCount]; omega
  | succ fuel ih =>
    intro start h
    by_cases hlt : start < n
    · simp only [failFastCount, if_pos hlt]
      by_cases hfail :
          (List.range' start (min c (n - start))).any (fun i => !(render i).isOk) = true
      · rw [if_pos hfail]; omega
      · rw [if_neg hfail]
        by_cases hin : start + c ≤ n
        · exact le_trans (by omega) (ih (start + c) hin)
        · rw [failFastCount_of_le render c n fuel (start + c) (by omega)]; omega
    · simp [failFastCount, hlt]; omega


theorem any_map_mk (render : Nat → OGResult String) (l : List Nat) :
    ((l.map (fun i => ({ index := i, result := render i } : BatchResult))).any
        (fun r => !r.result.isOk))
      = l.any (fun i => !(render i).isOk) := by
  induction l with
  | nil => rfl
  | cons a t iht => simp only [List.map_cons, List.any_cons, iht]

theorem batchLoop_failfast (render : Nat → OGResult String) (c n : Nat) :
    ∀ fuel start, n ≤ start + fuel * c →
      batchLoop render true c n fuel start =
        (List.range' start (failFastCount render c n fuel start - start)).map
          (fun i => { index := i, result := render i }) := by
  intro fuel
  induction fuel with
  | zero =>
    intro start hle
    simp at hle
    have h1 : min start n = n := by omega
    have h2 : n - start = 0 := by omega
    simp [batchLoop, failFastCount, h1, h2]
  | succ fuel ih =>
    intro start hle
    rw [Nat.succ_mul] at hle
    by_cases hlt : start < n
    · simp only [batchLoop, failFastCount, hlt, if_true, Bool.true_and,
        any_map_mk render]
      by_cases hfail :
          (List.range' start (min c (n - start))).any (fun i => !(render i).isOk) = true
      · rw [if_pos hfail, if_pos hfail]
        have harith : start + min c (n - start) - start = min c (n - start) := by omega
        rw [harith]
      · rw [if_neg hfail, if_neg hfail, ih (start + c) (by omega)]
        by_cases hbig : c ≤ n - start
        · have hmin : min c (n - start) = c := by omega
          have hS := le_failFastCount render c n fuel (start + c) (by omega)
          rw [hmin, ← List.map_append, List.range'_append_1]
          have harith : failFastCount render c n fuel (start + c) - (start + c) + c
              = failFastCount render c n fuel (start + c) - start := by omega
          rw [harith]
        · have hmin : min c (n - start) = n - start := by omega
          rw [failFastCount_of_le render c n fuel (start + c) (by omega)]
          have harith : n - (start + c) = 0 := by omega
          rw [hmin, harith]
          simp
    · have h2 : n - start = 0 := by omega
      simp [batchLoop, failFastCount, hlt, h2]

theorem sorted_index_range'_map (render : Nat → OGResult String) :
    ∀ (m s : Nat),
      ((List.range' s m).map
          (fun i => ({ index := i, result := render i } : BatchResult))).Sorted
        (fun a b => a.index ≤ b.index) := by
  intro m
  induction m with
  | zero => intro s; simp [List.Sorted]
  | succ m ih =>
    intro s
    rw [List.range'_succ, List.map_cons, List.Sorted, List.pairwise_cons]
    refine ⟨?_, ih (s + 1)⟩
    intro b hb
    simp only [List.mem_map] at hb
    obtain ⟨i, hi, rfl⟩ := hb
    have := (List.mem_range'_1).mp hi
    simp only []
    omega

/-! ## Claims C3, C5: the batch orchestrator -/

/-- C3: for every non-empty item list (of length `n`, with per-item settled
render outcomes `render` and chunk size `concurrency ≥ 1`), the returned
list is exactly the results for indices `0, 1, ..., L-1` in ascending index
order with `result[i].index = i`, where `L` is the input length without
fail-fast, and the number of items scheduled through the first failing
chunk under fail-fast (`failFastCount`, which is the input length when no
scheduled chunk fails). -/
theorem c3_batch_length_and_order (render : Nat → OGResult String) (c n : Nat)
    (ff : Bool) (hc : 1 ≤ c) (_hn : 1 ≤ n) :
    generateOGBatchResults render ff c n =
      (List.range (if ff then failFastCount render c n n 0 else n)).map
        (fun i => { index := i, result := render i }) := by
  have hfuel : n ≤ 0 + n * c := by
    have := Nat.le_mul_of_pos_right n (by omega : 0 < c)
    omega
  cases ff
  · rw [generateOGBatchResults, batchLoop_no_failfast render c n n 0 hfuel]
    rw [List.Sorted.insertionSort_eq (sorted_index_range'_map render (n - 0) 0)]
    simp [List.range_eq_range']
  · rw [generateOGBatchResults, batchLoop_failfast render c n n 0 hfuel]
    rw [List.Sorted.insertionSort_eq
      (sorted_index_range'_map render (failFastCount render c n n 0 - 0) 0)]
    simp [List.range_eq_range']

/-- C3 witness: three items, chunk size two, no fail-fast. -/
theorem c3_batch_length_and_order_witness :
    1 ≤ 2 ∧ 1 ≤ 3 ∧
    generateOGBatchResults okRender false 2 3 =
      (List.range (if false then failFastCount okRender 2 3 3 0 else 3)).map
        (fun i => { index := i, result := okRender i }) :=
  ⟨by decide, by decide, c3_batch_length_and_order okRender 2 3 false (by decide) (by decide)⟩

/-- C5: a batch of 6 items with `concurrency = 2` and `failFast = true`
where the item at index 1 always fails: the returned results are exactly
those for indices 0 and 1 (the first chunk), and the loop never schedules a
render for indices 2 through 5 — the indices passed to the per-item render
are exactly `[0, 1]`. -/
theorem c5_failfast_first_chunk_only :
    generateOGBatchResults c5Render true 2 6 =
      [{ index := 0, result := OGResult.ok "svg" },
       { index := 1,
         result := OGResult.error { name := "SVGGenerationError", message := "render failed" } }] ∧
    (batchLoop c5Render true 2 6 6 0).map BatchResult.index = [0, 1] := by
  constructor
  · rfl
  · rfl

/-! ## Stream orchestrator: supporting lemmas -/

theorem streamDrain_empty (finishAt : Nat → Nat) (render : Nat → OGResult String)
    (n : Nat) (fuel nextIdx clock : Nat) :
    streamDrain finishAt render n fuel [] nextIdx clock = [] := by
  cases fuel <;> rfl

theorem streamDrain_window (finishAt : Nat → Nat) (render : Nat → OGResult String)
    (n : Nat) :
    ∀ fuel i k clock, i + k ≤ n → fuel = n - i → (k = 0 → i = n) →
      (streamDrain finishAt render n fuel (List.range' i k) (i + k) clock).map
          (fun e => (e.index, e.result))
        = (List.range' i fuel).map (fun j => (j, render j)) := by
  intro fuel
  induction fuel with
  | zero =>
    intro i k clock hik hfuel hk0
    rfl
  | succ fuel ih =>
    intro i k clock hik hfuel hk0
    have hi : i < n := by omega
    cases k with
    | zero => exact absurd (hk0 rfl) (by omega)
    | succ j =>
      rw [List.range'_succ]
      by_cases hnext : i + (j + 1) < n
      · have hq : List.range' (i + 1) j ++ [i + (j + 1)] = List.range' (i + 1) (j + 1) := by
          have h1 : [i + (j + 1)] = List.range' (i + 1 + j) 1 := by simp; omega
          rw [h1, List.range'_append_1, Nat.add_comm 1 j]
        simp only [streamDrain, if_pos hnext, List.map_cons]
        rw [hq]
        have harg : i + (j + 1) + 1 = (i + 1) + (j + 1) := by omega
        rw [harg]
        rw [ih (i + 1) (j + 1) (max clock (finishAt i)) (by omega) (by omega) (by omega)]
        have : List.range' i (fuel + 1) = i :: List.range' (i + 1) fuel := List.range'_succ ..
        rw [this, List.map_cons]
      · have hn' : i + (j + 1) = n := by omega
        simp only [streamDrain, if_neg hnext, List.map_cons]
        have harg : i + (j + 1) = (i + 1) + j := by omega
        rw [harg]
        rw [ih (i + 1) j (max clock (finishAt i)) (by omega) (by omega) (by omega)]
        have : List.range' i (fuel + 1) = i :: List.range' (i + 1) fuel := List.range'_succ ..
        rw [this, List.map_cons]

/-! ## Claims C2, C10: the stream orchestrator -/

/-- C2: for every item sequence (length `n`, per-item settled results
`render`), every prefetch window `w ≥ 1` and every completion schedule
`finishAt` (the times at which the racing renders settle), `OGStream`
yields exactly one result per item, in input order: the projection of the
yield sequence to `(index, result)` is exactly
`[(0, render 0), ..., (n-1, render (n-1))]`. The drain loop always awaits
the window head (`pending.shift()`), never whichever render settles first,
so the conclusion is independent of `finishAt` even though each yield's
`time` does depend on it. -/
theorem c2_stream_in_input_order (finishAt : Nat → Nat) (render : Nat → OGResult String)
    (n : Nat) (w : Int) (hw : 1 ≤ w) :
    (OGStreamYields finishAt render n w).map (fun e => (e.index, e.result))
      = (List.range n).map (fun j => (j, render j)) := by
  have htn : 1 ≤ w.toNat := by omega
  have hfill : min w.toNat n ≤ n := min_le_right _ _
  have hfuel : min w.toNat n + (n - min w.toNat n) = n := by omega
  show (streamDrain finishAt render n (min w.toNat n + (n - min w.toNat n))
      (List.range (min w.toNat n)) (min w.toNat n) 0).map (fun e => (e.index, e.result))
    = (List.range n).map (fun j => (j, render j))
  rw [hfuel, List.range_eq_range' (min w.toNat n), List.range_eq_range' n]
  have key := streamDrain_window finishAt render n n 0 (min w.toNat n) 0
    (by omega) (by omega) (by omega)
  simpa using key

/-- C2 witness: four items with a completion schedule under which later
renders finish strictly earlier than earlier ones — the yields are still in
input order. -/
theorem c2_stream_in_input_order_witness :
    (1 : Int) ≤ 2 ∧
    (OGStreamYields (fun i => 10 - i) okRender 4 2).map (fun e => (e.index, e.result))
      = (List.range 4).map (fun j => (j, okRender j)) :=
  ⟨by decide, c2_stream_in_input_order (fun i => 10 - i) okRender 4 2 (by decide)⟩

/-- C10: for prefetch window `0` (or any non-positive `prefetch`), the fill
loop starts no renders (`Int.toNat` of a non-positive count is `0`), the
pending queue stays empty, the drain loop is never entered, and `OGStream`
yields nothing even on a non-empty input sequence. -/
theorem c10_nonpositive_prefetch_yields_nothing (finishAt : Nat → Nat)
    (render : Nat → OGResult String) (n : Nat) (w : Int) (hw : w ≤ 0) :
    OGStreamYields finishAt render n w = [] := by
  have h0 : w.toNat = 0 := by omega
  show streamDrain finishAt render n (min w.toNat n + (n - min w.toNat n))
      (List.range (min w.toNat n)) (min w.toNat n) 0 = []
  rw [h0]
  simp only [Nat.zero_min, List.range_zero, Nat.zero_add, Nat.sub_zero]
  exact streamDrain_empty finishAt render n n 0 0

/-- C10 witness: a strictly negative prefetch on a three-item sequence. -/
theorem c10_nonpositive_prefetch_yields_nothing_witness :
    ((-2 : Int) ≤ 0) ∧
    OGStreamYields (fun _ => 0) okRender 3 (-2) = [] :=
  ⟨by decide, c10_nonpositive_prefetch_yields_nothing (fun _ => 0) okRender 3 (-2) (by decide)⟩

/-! ## Claims C4, C7: error surfacing at the entry points -/

/-- C4 counterexample: an engine-initialization failure is NOT surfaced as
the error variant of the result by `generateOGBatch` or `OGStream` — both
await `ensureYogaInitialized()` outside any `try`, so the rejection escapes
the entry point (`Except.error` here models the caller-visible rejected
promise / rejecting first `next()`), and no result list is produced at all,
contradicting the claim for those two entry points. -/
theorem c4_counterexample :
    generateOGBatch (Except.error engineInitFailure) okRender false 2 6
      = Except.error engineInitFailure ∧
    OGStream (Except.error engineInitFailure) (fun _ => 0) okRender 6 3
      = Except.error engineInitFailure :=
  ⟨rfl, rfl⟩

/-- C4 amended: only `generateOG` surfaces an engine-initialization failure
as the error variant of its `OGResult` (its `try` block encloses the
readiness await); `generateOGBatch` and `OGStream` forward the rejection to
the caller unchanged — the batch promise rejects and the stream's first
`next()` rejects, with no result produced. -/
theorem c4_init_failure_surfacing (e : SatoriError) (p : String → Option Nat)
    (f : Option Nat) (lf : Except SatoriError Nat)
    (sat : Nat → Except SatoriError String) (elt : ElementInput)
    (finishAt : Nat → Nat) (render : Nat → OGResult String)
    (ff : Bool) (c n m : Nat) (w : Int) :
    generateOG ⟨Except.error e, p, f, lf, sat⟩ elt = OGResult.error e ∧
    generateOGBatch (Except.error e) render ff c n = Except.error e ∧
    OGStream (Except.error e) finishAt render m w = Except.error e :=
  ⟨rfl, rfl, rfl⟩

/-- C7 counterexample: when `parseHtml` yields `null`, `generateOG` returns
the error variant carrying `SVGGenerationError` (with message
`"Failed to parse HTML element"`), not a parse-failure kind
(`HTMLParseError`, the class `errors.ts` documents for HTML parse
failures, is never used): the claimed error kind is wrong. -/
theorem c7_counterexample :
    generateOG parseNullEnv (ElementInput.htmlString "<div>bad") = OGResult.error svgParseFailError ∧
    svgParseFailError.name = "SVGGenerationError" ∧
    ¬ svgParseFailError.name = "HTMLParseError" ∧
    ¬ svgParseFailError.name = "ParseError" :=
  ⟨rfl, rfl, by decide, by decide⟩

/-- C7 amended: for every string input on which the parse step yields
`null` (and initialization succeeded, so the parse step is reached),
`generateOG` returns the error variant carrying
`SVGGenerationError("Failed to parse HTML element")` — and, being a total
function into `OGResult`, it never throws or rejects past the entry-point
boundary. -/
theorem c7_parse_null_error_result (env : RenderEnv) (s : String)
    (hinit : env.init = Except.ok ()) (hparse : env.parseHtml s = none) :
    generateOG env (ElementInput.htmlString s) = OGResult.error svgParseFailError := by
  obtain ⟨i, p, f, lf, sat⟩ := env
  simp only [RenderEnv.init] at hinit
  simp only [RenderEnv.parseHtml] at hparse
  subst hinit
  simp [generateOG, hparse]

/-- C7 witness: the amended theorem at the concrete always-null environment. -/
theorem c7_parse_null_error_result_witness :
    parseNullEnv.init = Except.ok () ∧
    parseNullEnv.parseHtml "<div>x" = none ∧
    generateOG parseNullEnv (ElementInput.htmlString "<div>x") = OGResult.error svgParseFailError :=
  ⟨rfl, rfl, c7_parse_null_error_result parseNullEnv "<div>x" rfl rfl⟩

/-! ## Style splitting: supporting lemmas -/

theorem seesClose_false_of_depth0 :
    ∀ t : List Char, nonNestedBalanced t 0 = true → seesCloseBeforeOpen t = false := by
  intro t
  induction t with
  | nil => intro _; rfl
  | cons c t ih =>
    intro hb
    by_cases hopen : c = '('
    · subst hopen
      simp [seesCloseBeforeOpen]
    · by_cases hclose : c = ')'
      · subst hclose
        simp [nonNestedBalanced] at hb
      · simp only [nonNestedBalanced, if_neg hopen, if_neg hclose] at hb
        simp only [seesCloseBeforeOpen, if_neg hclose, if_neg hopen]
        exact ih hb

theorem seesClose_true_of_depth1 :
    ∀ t : List Char, nonNestedBalanced t 1 = true → seesCloseBeforeOpen t = true := by
  intro t
  induction t with
  | nil => intro hb; simp [nonNestedBalanced] at hb
  | cons c t ih =>
    intro hb
    by_cases hclose : c = ')'
    · subst hclose
      simp [seesCloseBeforeOpen]
    · by_cases hopen : c = '('
      · subst hopen
        simp [nonNestedBalanced] at hb
      · simp only [nonNestedBalanced, if_neg hopen, if_neg hclose] at hb
        simp only [seesCloseBeforeOpen, if_neg hclose, if_neg hopen]
        exact ih hb

theorem splitSemis_eq_depthSplit :
    ∀ (t : List Char) (acc : List Char) (d : Nat), d ≤ 1 →
      nonNestedBalanced t d = true → splitSemisAux acc t = depthSplitAux acc d t := by
  intro t
  induction t with
  | nil => intro acc d _ _; rfl
  | cons c t ih =>
    intro acc d hd hb
    by_cases hsemi : c = ';'
    · subst hsemi
      have hnb : nonNestedBalanced t d = true := by
        simpa [nonNestedBalanced] using hb
      have hcase : d = 0 ∨ d = 1 := by omega
      rcases hcase with rfl | rfl
      · have hsees := seesClose_false_of_depth0 t hnb
        simp only [splitSemisAux, depthSplitAux, hsees]
        simp only [if_true, if_pos rfl, Bool.false_eq_true, if_false]
        rw [ih [] 0 (by omega) hnb]
      · have hsees := seesClose_true_of_depth1 t hnb
        simp only [splitSemisAux, depthSplitAux, if_pos rfl, hsees, if_pos rfl]
        simp only [if_neg (by omega : ¬(1 = 0))]
        exact ih (';' :: acc) 1 (by omega) hnb
    · by_cases hopen : c = '('
      · subst hopen
        have hd0 : d = 0 := by
          rcases (by omega : d = 0 ∨ d = 1) with rfl | rfl
          · rfl
          · simp [nonNestedBalanced] at hb
        subst hd0
        have hnb : nonNestedBalanced t 1 = true := by
          simpa [nonNestedBalanced] using hb
        simp only [splitSemisAux, depthSplitAux]
        simp only [reduceIte, Nat.zero_add]
        exact ih ('(' :: acc) 1 (by omega) hnb
      · by_cases hclose : c = ')'
        · subst hclose
          have hd1 : d = 1 := by
            rcases (by omega : d = 0 ∨ d = 1) with rfl | rfl
            · simp [nonNestedBalanced] at hb
            · rfl
          subst hd1
          have hnb : nonNestedBalanced t 0 = true := by
            simpa [nonNestedBalanced] using hb
          simp only [splitSemisAux, depthSplitAux]
          simp only [reduceIte]
          exact ih (')' :: acc) 0 (by omega) hnb
        · have hnb : nonNestedBalanced t d = true := by
            simpa [nonNestedBalanced, hopen, hclose] using hb
          simp only [splitSemisAux, depthSplitAux, if_neg hsemi, if_neg hopen, if_neg hclose]
          exact ih (c :: acc) d hd hnb

/-! ## Claim C6: style attribute splitting -/

/-- C6 counterexample: the split regex `/;(?![^(]*\))/` does split at a `;`
inside a parenthesized sub-expression when a nested `(` follows the `;`
before the group's `)`: in `"a: f(b;g(c))"` the only semicolon sits inside
`f(...)`, yet the parser splits there and mangles the value to `"f(b"`,
instead of keeping the parenthesized value intact as the claim requires
(the spec-side depth-tracking splitter shows the claimed behavior). -/
theorem c6_counterexample :
    styleEntries nestedParenStyle = [("a", "f(b")] ∧
    specStyleEntries nestedParenStyle = [("a", "f(b;g(c))")] ∧
    ¬ styleEntries nestedParenStyle = specStyleEntries nestedParenStyle := by
  refine ⟨?_, ?_, ?_⟩
  · rfl
  · rfl
  · decide

/-- C6 amended: for every style attribute string whose parentheses are
balanced and non-nested (which covers the spec's gradient example), the
parser splits on `;` but never at a `;` inside a parenthesized
sub-expression, and normalizes each key from hyphen-case to camel-case:
the style map equals the one produced by the spec-side depth-tracking
splitter (with the same key/value normalization). -/
theorem c6_style_split_of_nonNested (style : String)
    (h : nonNestedBalanced (cleanStyleChars style) 0 = true) :
    styleEntries style = specStyleEntries style := by
  unfold styleEntries specStyleEntries
  rw [splitSemis_eq_depthSplit (cleanStyleChars style) [] 0 (by omega) h]

/-- C6 witness: the spec's round-trip example — the multi-argument gradient
value survives intact and both keys are already camel-case. -/
theorem c6_style_split_of_nonNested_witness :
    nonNestedBalanced (cleanStyleChars gradientStyle) 0 = true ∧
    styleEntries gradientStyle = specStyleEntries gradientStyle ∧
    styleEntries gradientStyle
      = [("color", "red"), ("background", "linear-gradient(90deg, red, blue)")] :=
  ⟨by decide, c6_style_split_of_nonNested gradientStyle (by decide), by decide⟩
